import Mathlib

/-!
Shallow embedding of the queue-management core of `src/app.py` (Flask app
"Experiencias Expy Fest").  The app keeps two SQL tables, `attractions`
(id SERIAL/AUTOINCREMENT, name TEXT UNIQUE, description TEXT,
duration_minutes INTEGER DEFAULT 5) and `queue` (id SERIAL/AUTOINCREMENT,
attraction_id, person_name, timestamp DEFAULT CURRENT_TIMESTAMP).

We model the database as two Lean lists kept in insertion (= id-ascending)
order, together with the next auto-increment ids.  Timestamps are naturals
supplied by the caller of enqueue (the SQL `CURRENT_TIMESTAMP` has second
granularity, so distinct enqueues may carry equal timestamps).  Each Flask
route becomes a pure function from the database (plus the request's form
fields) to a new database and an explicit result describing the response
(flash messages / redirects / 404s).  SQL `ORDER BY` is modelled by a
stable insertion sort, matching the stable ordering SQLite produces for
rows scanned in rowid order.
-/

namespace ExpyFest

/-- A row of the `attractions` table.  `duration_minutes` is stored exactly
as supplied by the form (the code performs no positivity check), so it may
be zero or negative. -/
structure Attraction where
  id : Nat
  name : String
  description : String
  duration_minutes : Int
  deriving DecidableEq

/-- A row of the `queue` table. -/
structure QueueEntry where
  id : Nat
  attraction_id : Nat
  person_name : String
  timestamp : Nat
  deriving DecidableEq

/-- The whole database.  Both tables are kept in insertion order, which for
SERIAL / AUTOINCREMENT primary keys is id-ascending order.  `nextAttractionId`
and `nextQueueId` are the auto-increment counters (SQL starts them at 1). -/
structure DB where
  attractions : List Attraction
  queue : List QueueEntry
  nextAttractionId : Nat
  nextQueueId : Nat
  deriving DecidableEq

/-- The freshly initialised database (`init_db` creates empty tables). -/
def DB.empty : DB := ⟨[], [], 1, 1⟩

/-- Python's `str.strip()` with no argument: drop whitespace from both
ends.  Defined structurally over the string's character list so that it
evaluates by kernel reduction; `Char.isWhitespace` covers the ASCII
whitespace characters (space, tab, CR, LF), which is what the app's form
inputs can contain. -/
def pyStrip (s : String) : String :=
  ⟨((s.data.dropWhile Char.isWhitespace).reverse.dropWhile Char.isWhitespace).reverse⟩

/-- Stable insertion into a list sorted by the boolean comparison `le`:
the new element goes before the first element it is strictly smaller than,
hence after every already-present element it ties with. -/
def insertLe (le : α → α → Bool) (x : α) : List α → List α
  | [] => [x]
  | y :: ys => if le x y then x :: y :: ys else y :: insertLe le x ys

/-- Stable insertion sort by the boolean comparison `le`; models SQL
`ORDER BY` over rows scanned in rowid order (ties keep rowid order). -/
def sortLe (le : α → α → Bool) : List α → List α
  | [] => []
  | x :: xs => insertLe le x (sortLe le xs)

/-- The comparison used by `ORDER BY timestamp` on the `queue` table. -/
def tsLE (e f : QueueEntry) : Bool := decide (e.timestamp ≤ f.timestamp)

/-- `SELECT * FROM attractions WHERE id = ?` (ids are unique). -/
def find_attraction (db : DB) (aid : Nat) : Option Attraction :=
  db.attractions.find? (fun a => a.id == aid)

/-- `SELECT COUNT(*) FROM queue WHERE attraction_id = ?`. -/
def queue_count (db : DB) (aid : Nat) : Nat :=
  (db.queue.filter (fun e => e.attraction_id == aid)).length

/-- One row of the `index` route's aggregate query. -/
structure IndexRow where
  id : Nat
  name : String
  description : String
  duration_minutes : Int
  queue_count : Nat
  estimated_wait_minutes : Int
  deriving DecidableEq

/-- The comparison used by `ORDER BY a.name` on the index query
(SQL BINARY collation = code-point order, as for Lean strings). -/
def nameLE (r s : IndexRow) : Bool := decide (r.name ≤ s.name)

/-- The `index` route (`/`): one row per attraction with
`COUNT(q.id)` and `COUNT(q.id) * a.duration_minutes`, `ORDER BY a.name`. -/
def index (db : DB) : List IndexRow :=
  sortLe nameLE
    (db.attractions.map fun a =>
      { id := a.id
        name := a.name
        description := a.description
        duration_minutes := a.duration_minutes
        queue_count := queue_count db a.id
        estimated_wait_minutes := (queue_count db a.id : Int) * a.duration_minutes })

/-- The `attraction_detail` route (`/attraction/<id>`): 404 when the id is
unknown, otherwise the attraction together with
`SELECT * FROM queue WHERE attraction_id = ? ORDER BY timestamp`. -/
def attraction_detail (db : DB) (aid : Nat) : Option (Attraction × List QueueEntry) :=
  match find_attraction db aid with
  | none => none
  | some a =>
      some (a, sortLe tsLE (db.queue.filter (fun e => e.attraction_id == aid)))

/-- The ordered listing of an attraction's queue (spec: `list_entries`);
`none` is the route's 404 (NotFound). -/
def list_entries (db : DB) (aid : Nat) : Option (List QueueEntry) :=
  (attraction_detail db aid).map (fun p => p.2)

/-- The attraction's queue depth as observed through `attraction_detail`
(spec: `depth`); `none` is NotFound. -/
def depth (db : DB) (aid : Nat) : Option Nat :=
  (list_entries db aid).map List.length

/-- Outcome of the `add_attraction` route. -/
inductive CreateResult where
  /-- The INSERT succeeded; success flash. -/
  | created
  /-- The UNIQUE constraint on `name` fired; duplicate-name error flash,
  nothing inserted. -/
  | duplicateName
  /-- `if name:` was false (empty name): the route silently skips the
  INSERT, flashes nothing, and redirects to the index. -/
  | skipped
  deriving DecidableEq

/-- The `add_attraction` route.  `duration_field` is
`request.form.get('duration_minutes', 5)`: `none` means the field was
absent, in which case 5 is used; a supplied value is stored unchanged. -/
def add_attraction (db : DB) (name description : String) (duration_field : Option Int) :
    DB × CreateResult :=
  let duration_minutes := duration_field.getD 5
  if name = "" then (db, .skipped)
  else if db.attractions.any (fun a => a.name == name) then (db, .duplicateName)
  else
    ({ db with
        attractions :=
          db.attractions ++ [⟨db.nextAttractionId, name, description, duration_minutes⟩]
        nextAttractionId := db.nextAttractionId + 1 },
     .created)

/-- Outcome of the `add_to_queue` route. -/
inductive EnqueueResult where
  /-- Trimmed name empty or shorter than 2 characters: error flash,
  nothing inserted. -/
  | invalidName
  /-- Unknown attraction id: error flash, nothing inserted. -/
  | notFound
  /-- Entry inserted; the flash reports the estimated wait in minutes. -/
  | ok (entry : QueueEntry) (estimated_wait : Int)
  deriving DecidableEq

/-- The `add_to_queue` route (`/add_to_queue/<id>`).  `now` is the value
`CURRENT_TIMESTAMP` stamps on the inserted row.  The reported wait is
`(queue_count_before + 1) * (duration_minutes or 5)`; Python's `or`
replaces the duration by 5 exactly when it is 0 (its only falsy value
here), not when it is negative. -/
def add_to_queue (db : DB) (aid : Nat) (raw_name : String) (now : Nat) :
    DB × EnqueueResult :=
  let person_name := pyStrip raw_name
  if person_name = "" then (db, .invalidName)
  else if person_name.length < 2 then (db, .invalidName)
  else
    match find_attraction db aid with
    | none => (db, .notFound)
    | some attraction =>
        let count := queue_count db aid
        let entry : QueueEntry := ⟨db.nextQueueId, aid, person_name, now⟩
        let new_queue_count := count + 1
        let estimated_wait :=
          (new_queue_count : Int) *
            (if attraction.duration_minutes = 0 then 5 else attraction.duration_minutes)
        ({ db with
            queue := db.queue ++ [entry]
            nextQueueId := db.nextQueueId + 1 },
         .ok entry estimated_wait)

/-- Outcome of the `next_person` route. -/
inductive DequeueResult where
  /-- The entry existed: it is deleted and the route redirects to the
  detail page of the attraction it belonged to. -/
  | removed (attraction_id : Nat)
  /-- No queue row with that id: no deletion, redirect to the index. -/
  | notFound
  deriving DecidableEq

/-- The `next_person` route (`/next_person/<queue_id>`): looks the entry up
by its id and deletes that row wherever it sits in its queue. -/
def next_person (db : DB) (qid : Nat) : DB × DequeueResult :=
  match db.queue.find? (fun e => e.id == qid) with
  | none => (db, .notFound)
  | some e =>
      ({ db with queue := db.queue.filter (fun x => x.id != qid) },
       .removed e.attraction_id)

/-- Outcome of the POST branch of the `edit_attraction` route. -/
inductive EditResult where
  /-- Unknown attraction id: 404 page. -/
  | notFound
  /-- The UPDATE succeeded; success flash. -/
  | updated
  /-- The UNIQUE constraint on `name` fired (another row already holds the
  new name): error flash, transaction rolled back, nothing changed. -/
  | duplicateName
  /-- `if name:` was false (empty name): the route silently re-renders the
  form, changing nothing and flashing nothing. -/
  | skipped
  deriving DecidableEq

/-- The POST branch of the `edit_attraction` route
(`/edit_attraction/<id>`): an UPDATE of all three fields; the UNIQUE
constraint fires exactly when a different row already holds the new name. -/
def edit_attraction (db : DB) (aid : Nat) (name description : String)
    (duration_field : Option Int) : DB × EditResult :=
  match find_attraction db aid with
  | none => (db, .notFound)
  | some _ =>
      if name = "" then (db, .skipped)
      else
        let duration_minutes := duration_field.getD 5
        if db.attractions.any (fun a => a.name == name && a.id != aid) then
          (db, .duplicateName)
        else
          ({ db with
              attractions := db.attractions.map fun a =>
                if a.id == aid then
                  { a with name := name, description := description,
                           duration_minutes := duration_minutes }
                else a },
           .updated)

/-- Outcome of the `delete_attraction` and `clear_queue` routes. -/
inductive PurgeResult where
  /-- The operation ran; success flash. -/
  | done
  /-- Unknown attraction id: error flash, nothing changed. -/
  | notFound
  deriving DecidableEq

/-- The `delete_attraction` route (`/delete_attraction/<id>`): deletes the
attraction's queue rows and the attraction itself in one committed
transaction. -/
def delete_attraction (db : DB) (aid : Nat) : DB × PurgeResult :=
  match find_attraction db aid with
  | none => (db, .notFound)
  | some _ =>
      ({ db with
          attractions := db.attractions.filter (fun a => a.id != aid)
          queue := db.queue.filter (fun e => e.attraction_id != aid) },
       .done)

/-- The `clear_queue` route (`/clear_queue/<id>`): deletes every queue row
of the attraction (a no-op deletion still succeeds). -/
def clear_queue (db : DB) (aid : Nat) : DB × PurgeResult :=
  match find_attraction db aid with
  | none => (db, .notFound)
  | some _ =>
      ({ db with queue := db.queue.filter (fun e => e.attraction_id != aid) },
       .done)

/-! ### Lemmas about the stable insertion sort -/

/-- The interpretation of `ORDER BY timestamp` as a proposition. -/
def TsLe (a b : QueueEntry) : Prop := a.timestamp ≤ b.timestamp

/-- The spec's listing order: timestamp ascending, ties broken by entry id
ascending. -/
def LexLt (a b : QueueEntry) : Prop :=
  a.timestamp < b.timestamp ∨ (a.timestamp = b.timestamp ∧ a.id < b.id)

theorem insertLe_perm (le : α → α → Bool) (x : α) :
    ∀ l : List α, List.Perm (insertLe le x l) (x :: l)
  | [] => List.Perm.refl _
  | y :: ys => by
      simp only [insertLe]
      split
      · exact List.Perm.refl _
      · exact ((insertLe_perm le x ys).cons y).trans (List.Perm.swap x y ys)

theorem sortLe_perm (le : α → α → Bool) : ∀ l : List α, List.Perm (sortLe le l) l
  | [] => List.Perm.refl _
  | x :: xs => (insertLe_perm le x (sortLe le xs)).trans ((sortLe_perm le xs).cons x)

theorem mem_sortLe (le : α → α → Bool) (l : List α) (a : α) :
    a ∈ sortLe le l ↔ a ∈ l :=
  (sortLe_perm le l).mem_iff

theorem length_sortLe (le : α → α → Bool) (l : List α) :
    (sortLe le l).length = l.length :=
  (sortLe_perm le l).length_eq

theorem insertLe_eq_cons (x : QueueEntry) :
    ∀ l : List QueueEntry, (∀ z ∈ l, x.timestamp ≤ z.timestamp) →
      insertLe tsLE x l = x :: l
  | [], _ => rfl
  | y :: ys, h => by
      simp only [insertLe, tsLE]
      rw [if_pos]
      simpa using h y (List.mem_cons_self y ys)

theorem pairwise_ts_insertLe (x : QueueEntry) :
    ∀ l : List QueueEntry, l.Pairwise TsLe → (insertLe tsLE x l).Pairwise TsLe := by
  intro l
  induction l with
  | nil => intro _; simp [insertLe, List.Pairwise]
  | cons y ys ih =>
      intro hl
      rw [List.pairwise_cons] at hl
      simp only [insertLe, tsLE]
      by_cases hxy : x.timestamp ≤ y.timestamp
      · rw [if_pos (by simpa using hxy)]
        refine List.Pairwise.cons ?_ (List.pairwise_cons.mpr hl)
        intro z hz
        rcases List.mem_cons.mp hz with rfl | hz
        · exact hxy
        · exact le_trans hxy (hl.1 z hz)
      · rw [if_neg (by simpa using hxy)]
        refine List.Pairwise.cons ?_ (ih hl.2)
        intro z hz
        rcases List.mem_cons.mp ((insertLe_perm tsLE x ys).mem_iff.mp hz) with rfl | hz
        · exact le_of_lt (lt_of_not_le hxy)
        · exact hl.1 z hz

theorem pairwise_ts_sortLe : ∀ l : List QueueEntry, (sortLe tsLE l).Pairwise TsLe
  | [] => by simp [sortLe, List.Pairwise]
  | x :: xs => pairwise_ts_insertLe x (sortLe tsLE xs) (pairwise_ts_sortLe xs)

theorem pairwise_lex_insertLe (x : QueueEntry) :
    ∀ l : List QueueEntry, l.Pairwise LexLt → (∀ y ∈ l, x.id < y.id) →
      (insertLe tsLE x l).Pairwise LexLt := by
  intro l
  induction l with
  | nil => intro _ _; simp [insertLe, List.Pairwise]
  | cons y ys ih =>
      intro hl hx
      rw [List.pairwise_cons] at hl
      simp only [insertLe, tsLE]
      by_cases hxy : x.timestamp ≤ y.timestamp
      · rw [if_pos (by simpa using hxy)]
        refine List.Pairwise.cons ?_ (List.pairwise_cons.mpr hl)
        intro z hz
        have hts : x.timestamp ≤ z.timestamp := by
          rcases List.mem_cons.mp hz with rfl | hz
          · exact hxy
          · rcases hl.1 z hz with h | h
            · exact le_trans hxy (le_of_lt h)
            · exact le_trans hxy (le_of_eq h.1)
        rcases lt_or_eq_of_le hts with h | h
        · exact Or.inl h
        · exact Or.inr ⟨h, hx z hz⟩
      · rw [if_neg (by simpa using hxy)]
        refine List.Pairwise.cons ?_ (ih hl.2 (fun z hz => hx z (List.mem_cons_of_mem y hz)))
        intro z hz
        rcases List.mem_cons.mp ((insertLe_perm tsLE x ys).mem_iff.mp hz) with rfl | hz
        · exact Or.inl (lt_of_not_le hxy)
        · exact hl.1 z hz

theorem pairwise_lex_sortLe :
    ∀ l : List QueueEntry, l.Pairwise (fun a b => a.id < b.id) →
      (sortLe tsLE l).Pairwise LexLt := by
  intro l
  induction l with
  | nil => intro _; simp [sortLe, List.Pairwise]
  | cons x xs ih =>
      intro hl
      rw [List.pairwise_cons] at hl
      exact pairwise_lex_insertLe x (sortLe tsLE xs) (ih hl.2)
        (fun y hy => hl.1 y ((sortLe_perm tsLE xs).mem_iff.mp hy))

theorem filter_insertLe (p : QueueEntry → Bool) (x : QueueEntry) :
    ∀ l : List QueueEntry, l.Pairwise TsLe →
      (insertLe tsLE x l).filter p =
        if p x then insertLe tsLE x (l.filter p) else l.filter p := by
  intro l
  induction l with
  | nil =>
      intro _
      simp only [insertLe]
      by_cases hp : p x = true
      · rw [if_pos hp]
        simp [insertLe, List.filter_cons, hp]
      · rw [if_neg hp]
        simp [List.filter_cons, Bool.eq_false_iff.mpr hp]
  | cons y ys ih =>
      intro hl
      rw [List.pairwise_cons] at hl
      simp only [insertLe, tsLE]
      by_cases hxy : x.timestamp ≤ y.timestamp
      · rw [if_pos (by simpa using hxy)]
        have hhead : ∀ z ∈ (y :: ys).filter p, x.timestamp ≤ z.timestamp := by
          intro z hz
          rcases List.mem_cons.mp (List.mem_of_mem_filter hz) with rfl | hz
          · exact hxy
          · exact le_trans hxy (hl.1 z hz)
        by_cases hp : p x = true
        · rw [List.filter_cons_of_pos (by simpa using hp), if_pos hp,
              insertLe_eq_cons x _ hhead]
        · rw [List.filter_cons_of_neg (by simpa using hp), if_neg hp]
      · rw [if_neg (by simpa using hxy)]
        by_cases hpy : p y = true
        · rw [List.filter_cons_of_pos (by simpa using hpy),
              List.filter_cons_of_pos (by simpa using hpy), ih hl.2]
          by_cases hp : p x = true
          · rw [if_pos hp, if_pos hp]
            simp only [insertLe, tsLE]
            rw [if_neg (by simpa using hxy)]
          · rw [if_neg hp, if_neg hp]
        · rw [List.filter_cons_of_neg (by simpa using hpy),
              List.filter_cons_of_neg (by simpa using hpy), ih hl.2]

theorem filter_sortLe (p : QueueEntry → Bool) :
    ∀ l : List QueueEntry, (sortLe tsLE l).filter p = sortLe tsLE (l.filter p) := by
  intro l
  induction l with
  | nil => simp [sortLe]
  | cons x xs ih =>
      simp only [sortLe]
      rw [filter_insertLe p x (sortLe tsLE xs) (pairwise_ts_sortLe xs), ih]
      by_cases hp : p x = true
      · rw [if_pos hp, List.filter_cons_of_pos (by simpa using hp)]
        simp [sortLe]
      · rw [if_neg hp, List.filter_cons_of_neg (by simpa using hp)]

theorem find?_eq_of_pairwise_mem :
    ∀ l : List QueueEntry, l.Pairwise (fun a b => a.id < b.id) →
      ∀ e ∈ l, l.find? (fun x => x.id == e.id) = some e := by
  intro l
  induction l with
  | nil => intro _ e he; cases he
  | cons x xs ih =>
      intro hl e he
      rw [List.pairwise_cons] at hl
      rcases List.mem_cons.mp he with rfl | he
      · simp [List.find?]
      · have hne : x.id ≠ e.id := Nat.ne_of_lt (hl.1 e he)
        rw [List.find?_cons_of_neg _ (by simpa using hne)]
        exact ih hl.2 e he

/-! ### Helper lemmas about the routes -/

theorem depth_eq_count (db : DB) (aid : Nat) (a : Attraction)
    (hf : find_attraction db aid = some a) :
    depth db aid = some (queue_count db aid) := by
  simp [depth, list_entries, attraction_detail, hf, length_sortLe, queue_count]

theorem add_to_queue_ok (db : DB) (aid : Nat) (raw_name : String) (now : Nat)
    (a : Attraction) (hf : find_attraction db aid = some a)
    (hlen : 2 ≤ (pyStrip raw_name).length) :
    add_to_queue db aid raw_name now =
      ({ db with
          queue := db.queue ++ [⟨db.nextQueueId, aid, pyStrip raw_name, now⟩]
          nextQueueId := db.nextQueueId + 1 },
        EnqueueResult.ok ⟨db.nextQueueId, aid, pyStrip raw_name, now⟩
          (((queue_count db aid + 1 : Nat) : Int) *
            (if a.duration_minutes = 0 then 5 else a.duration_minutes))) := by
  have h0 : ¬ pyStrip raw_name = "" := by
    intro h
    rw [h] at hlen
    simp at hlen
  have h1 : ¬ (pyStrip raw_name).length < 2 := not_lt.mpr hlen
  simp [add_to_queue, h0, h1, hf]

theorem add_to_queue_ok_inv (db : DB) (aid : Nat) (raw_name : String) (now : Nat)
    (db' : DB) (e : QueueEntry) (w : Int)
    (h : add_to_queue db aid raw_name now = (db', EnqueueResult.ok e w)) :
    2 ≤ (pyStrip raw_name).length ∧ ∃ a, find_attraction db aid = some a := by
  by_cases h0 : pyStrip raw_name = ""
  · simp [add_to_queue, h0] at h
  · by_cases h1 : (pyStrip raw_name).length < 2
    · simp [add_to_queue, h0, h1] at h
    · cases hf : find_attraction db aid with
      | none => simp [add_to_queue, h0, h1, hf] at h
      | some a => exact ⟨not_lt.mp h1, a, rfl⟩

/-! ### Sample databases used by the witnesses -/

/-- A database with one attraction "Zipline" (id 1, duration 4), built
through the create route. -/
def dbZip : DB := (add_attraction DB.empty "Zipline" "fun" (some 4)).1

/-- `dbZip` after enqueueing "Ana" and "Bob", both stamped at second 7
(equal timestamps, so the id tiebreak is exercised). -/
def dbZip2 : DB := (add_to_queue (add_to_queue dbZip 1 "Ana" 7).1 1 "Bob" 7).1

/-- A database whose single attraction was created with a supplied
duration of 0 (the form allows it: no positivity validation). -/
def dbZero : DB := (add_attraction DB.empty "Zip" "" (some 0)).1

/-- Two attractions, "Haunted House" (id 1) and "Cave" (id 2). -/
def dbTwo : DB :=
  (add_attraction (add_attraction DB.empty "Haunted House" "spooky" (some 3)).1
    "Cave" "dark" none).1

/-! ### Claim theorems -/

/-- Claim C3, counterexample: creating an attraction with a supplied
`duration_minutes` of 0 stores 0, not 5, so a stored service duration can
be non-positive. -/
theorem nonpositive_duration_stored_cex :
    (add_attraction DB.empty "Zip" "" (some 0)).2 = CreateResult.created ∧
    find_attraction (add_attraction DB.empty "Zip" "" (some 0)).1 1 =
      some ⟨1, "Zip", "", 0⟩ ∧
    ((0 : Int) ≤ 0 ∧ (0 : Int) ≠ 5) := by decide

/-- Claim C3 (amended): the stored `duration_minutes` of a created or
updated attraction is the supplied value when the form field is present —
even when it is zero or negative — and 5 only when the field is absent. -/
theorem add_attraction_duration_default (db : DB) (aid : Nat)
    (name desc : String) (dopt : Option Int) (hname : name ≠ "")
    (hdup : db.attractions.any (fun a => a.name == name) = false) :
    (dopt = none →
      (add_attraction db name desc dopt).1.attractions.getLast? =
        some ⟨db.nextAttractionId, name, desc, 5⟩) ∧
    (∀ d : Int, dopt = some d →
      (add_attraction db name desc dopt).1.attractions.getLast? =
        some ⟨db.nextAttractionId, name, desc, d⟩) ∧
    ((edit_attraction db aid name desc dopt).2 = EditResult.updated →
      ∀ b ∈ (edit_attraction db aid name desc dopt).1.attractions,
        b.id = aid → b.duration_minutes = dopt.getD 5) := by
  refine ⟨?_, ?_, ?_⟩
  · rintro rfl
    simp [add_attraction, hname, hdup, List.getLast?_concat]
  · rintro d rfl
    simp [add_attraction, hname, hdup, List.getLast?_concat]
  · intro hupd b hb hbid
    cases hf : find_attraction db aid with
    | none => simp [edit_attraction, hf] at hupd
    | some a =>
        by_cases hd : db.attractions.any (fun a => a.name == name && a.id != aid) = true
        · simp [edit_attraction, hf, hname, hd] at hupd
        · simp only [edit_attraction, hf, if_neg hname, hd, if_false] at hb
          rcases List.mem_map.mp hb with ⟨c, _, hc⟩
          by_cases hcid : c.id = aid
          · rw [← hc]
            simp [hcid]
          · rw [← hc] at hbid
            simp [hcid] at hbid

/-- Claim C3, witness at concrete inputs: absent field stores 5, supplied
0 stores 0, and an update that supplies -2 stores -2. -/
theorem add_attraction_duration_default_witness :
    (add_attraction DB.empty "Cave" "dark" none).1.attractions.getLast? =
      some ⟨1, "Cave", "dark", 5⟩ ∧
    (add_attraction DB.empty "Zip" "" (some 0)).1.attractions.getLast? =
      some ⟨1, "Zip", "", 0⟩ ∧
    ((edit_attraction dbZip 1 "Zipline2" "fun" (some (-2))).2 = EditResult.updated →
      ∀ b ∈ (edit_attraction dbZip 1 "Zipline2" "fun" (some (-2))).1.attractions,
        b.id = 1 → b.duration_minutes = (some (-2 : Int)).getD 5) :=
  ⟨(add_attraction_duration_default DB.empty 1 "Cave" "dark" none (by decide)
      (by decide)).1 rfl,
   (add_attraction_duration_default DB.empty 1 "Zip" "" (some 0) (by decide)
      (by decide)).2.1 0 rfl,
   (add_attraction_duration_default dbZip 1 "Zipline2" "fun" (some (-2)) (by decide)
      (by decide)).2.2⟩

/-- Claim C7: enqueue fails with InvalidName, leaving the database
unchanged, exactly when the person name is shorter than 2 characters after
stripping surrounding whitespace. -/
theorem enqueue_invalid_name_iff (db : DB) (aid : Nat) (raw_name : String)
    (now : Nat) :
    add_to_queue db aid raw_name now = (db, EnqueueResult.invalidName) ↔
      (pyStrip raw_name).length < 2 := by
  constructor
  · intro h
    by_cases h0 : pyStrip raw_name = ""
    · rw [h0]
      simp
    · by_cases h1 : (pyStrip raw_name).length < 2
      · exact h1
      · exfalso
        cases hf : find_attraction db aid with
        | none => simp [add_to_queue, h0, h1, hf] at h
        | some a => simp [add_to_queue, h0, h1, hf] at h
  · intro h
    by_cases h0 : pyStrip raw_name = ""
    · simp [add_to_queue, h0]
    · simp [add_to_queue, h0, h]

/-- Claim C10: creating an attraction with an empty name is silently
skipped (no flash, no state change), and so is updating an existing
attraction to an empty name. -/
theorem empty_name_silent_noop (db : DB) (aid : Nat) (desc : String)
    (dopt : Option Int) :
    add_attraction db "" desc dopt = (db, CreateResult.skipped) ∧
    (∀ a, find_attraction db aid = some a →
      edit_attraction db aid "" desc dopt = (db, EditResult.skipped)) := by
  constructor
  · simp [add_attraction]
  · intro a ha
    simp [edit_attraction, ha]

/-- Claim C10, witness: the create and the update at a concrete state. -/
theorem empty_name_silent_noop_witness :
    add_attraction dbZip "" "d" none = (dbZip, CreateResult.skipped) ∧
    edit_attraction dbZip 1 "" "d" none = (dbZip, EditResult.skipped) :=
  ⟨(empty_name_silent_noop dbZip 1 "d" none).1,
   (empty_name_silent_noop dbZip 1 "d" none).2 ⟨1, "Zipline", "fun", 4⟩ (by decide)⟩

/-- Claim C4: `next_person` (the by-id dequeue) deletes the queue row with
the given id wherever it sits, keeps every other row, and redirects against
the attraction the row belonged to; when no row has that id it changes
nothing and redirects to the index (the NotFound outcome). -/
theorem next_person_spec (db : DB) (qid : Nat)
    (hWF : db.queue.Pairwise (fun a b => a.id < b.id)) :
    (∀ e ∈ db.queue, e.id = qid →
      next_person db qid =
        ({ db with queue := db.queue.filter (fun x => x.id != qid) },
          DequeueResult.removed e.attraction_id) ∧
      e ∉ (next_person db qid).1.queue ∧
      ∀ x ∈ db.queue, x.id ≠ qid → x ∈ (next_person db qid).1.queue) ∧
    ((∀ e ∈ db.queue, e.id ≠ qid) → next_person db qid = (db, DequeueResult.notFound)) := by
  constructor
  · intro e he heq
    subst heq
    have hfind := find?_eq_of_pairwise_mem db.queue hWF e he
    have hnp : next_person db e.id =
        ({ db with queue := db.queue.filter (fun x => x.id != e.id) },
          DequeueResult.removed e.attraction_id) := by
      simp [next_person, hfind]
    refine ⟨hnp, ?_, ?_⟩
    · rw [hnp]
      simp
    · intro x hx hne
      rw [hnp]
      simp only [List.mem_filter]
      exact ⟨hx, by simpa using hne⟩
  · intro h
    have hfind : db.queue.find? (fun e => e.id == qid) = none :=
      List.find?_eq_none.mpr (fun x hx => by simpa using h x hx)
    simp [next_person, hfind]

/-- Claim C4, witness: removing id 2 from the two-entry queue and the
NotFound case for the absent id 3. -/
theorem next_person_spec_witness :
    next_person dbZip2 2 =
      ({ dbZip2 with queue := dbZip2.queue.filter (fun x => x.id != 2) },
        DequeueResult.removed 1) ∧
    next_person dbZip2 3 = (dbZip2, DequeueResult.notFound) :=
  ⟨((next_person_spec dbZip2 2 (by decide)).1 ⟨2, 1, "Bob", 7⟩ (by decide) rfl).1,
   (next_person_spec dbZip2 3 (by decide)).2 (by decide)⟩

/-- Claim C5: deleting an existing attraction removes it and every queue
entry referencing it in the same step (no orphans), after which the
detail-page observations (`depth`, `list_entries`) report NotFound;
deleting an absent id fails with NotFound and changes nothing. -/
theorem delete_attraction_spec (db : DB) (aid : Nat) :
    (find_attraction db aid = none →
      delete_attraction db aid = (db, PurgeResult.notFound)) ∧
    (∀ a, find_attraction db aid = some a →
      (delete_attraction db aid).2 = PurgeResult.done ∧
      (∀ e ∈ (delete_attraction db aid).1.queue, e.attraction_id ≠ aid) ∧
      find_attraction (delete_attraction db aid).1 aid = none ∧
      list_entries (delete_attraction db aid).1 aid = none ∧
      depth (delete_attraction db aid).1 aid = none) := by
  constructor
  · intro h
    simp [delete_attraction, h]
  · intro a ha
    have hd : delete_attraction db aid =
        ({ db with
            attractions := db.attractions.filter (fun a => a.id != aid)
            queue := db.queue.filter (fun e => e.attraction_id != aid) },
          PurgeResult.done) := by
      simp [delete_attraction, ha]
    have hfind : find_attraction (delete_attraction db aid).1 aid = none := by
      rw [hd]
      exact List.find?_eq_none.mpr (fun x hx => by
        have := (List.mem_filter.mp hx).2
        simpa using this)
    refine ⟨by rw [hd], ?_, hfind, ?_, ?_⟩
    · intro e he
      rw [hd] at he
      have := (List.mem_filter.mp he).2
      simpa using this
    · simp [list_entries, attraction_detail, hfind]
    · simp [depth, list_entries, attraction_detail, hfind]

/-- Claim C5, witness: deleting attraction 1 of the two-entry database and
the NotFound case for an unknown id. -/
theorem delete_attraction_spec_witness :
    delete_attraction dbZip2 9 = (dbZip2, PurgeResult.notFound) ∧
    (delete_attraction dbZip2 1).2 = PurgeResult.done ∧
    list_entries (delete_attraction dbZip2 1).1 1 = none ∧
    depth (delete_attraction dbZip2 1).1 1 = none :=
  ⟨(delete_attraction_spec dbZip2 9).1 (by decide),
   ((delete_attraction_spec dbZip2 1).2 ⟨1, "Zipline", "fun", 4⟩ (by decide)).1,
   ((delete_attraction_spec dbZip2 1).2 ⟨1, "Zipline", "fun", 4⟩ (by decide)).2.2.2.1,
   ((delete_attraction_spec dbZip2 1).2 ⟨1, "Zipline", "fun", 4⟩ (by decide)).2.2.2.2⟩

/-- Claim C8: `clear_queue` on an existing attraction deletes exactly that
attraction's entries in one step, leaving its depth at 0 and other
attractions' entries in place, and succeeds even when the queue was already
empty (removing zero entries); on an unknown id it fails with NotFound and
changes nothing. -/
theorem clear_queue_spec (db : DB) (aid : Nat) :
    (find_attraction db aid = none →
      clear_queue db aid = (db, PurgeResult.notFound)) ∧
    (∀ a, find_attraction db aid = some a →
      clear_queue db aid =
        ({ db with queue := db.queue.filter (fun e => e.attraction_id != aid) },
          PurgeResult.done) ∧
      depth (clear_queue db aid).1 aid = some 0 ∧
      (∀ e ∈ db.queue, e.attraction_id ≠ aid → e ∈ (clear_queue db aid).1.queue) ∧
      (queue_count db aid = 0 → clear_queue db aid = (db, PurgeResult.done))) := by
  constructor
  · intro h
    simp [clear_queue, h]
  · intro a ha
    have hc : clear_queue db aid =
        ({ db with queue := db.queue.filter (fun e => e.attraction_id != aid) },
          PurgeResult.done) := by
      simp [clear_queue, ha]
    have hfind : find_attraction (clear_queue db aid).1 aid = some a := by
      rw [hc]
      exact ha
    refine ⟨hc, ?_, ?_, ?_⟩
    · rw [depth_eq_count _ _ _ hfind]
      have : queue_count (clear_queue db aid).1 aid = 0 := by
        rw [hc]
        simp only [queue_count, List.filter_filter, List.length_eq_zero]
        apply List.filter_eq_nil_iff.mpr
        intro e _
        simp [bne]
      rw [this]
    · intro e he hne
      rw [hc]
      simp only [List.mem_filter]
      exact ⟨he, by simpa using hne⟩
    · intro hcount
      have hq : db.queue.filter (fun e => e.attraction_id != aid) = db.queue := by
        apply List.filter_eq_self.mpr
        intro e he
        have : ¬ (e.attraction_id == aid) = true := by
          intro habs
          have : e ∈ db.queue.filter (fun e => e.attraction_id == aid) :=
            List.mem_filter.mpr ⟨he, habs⟩
          rw [List.length_eq_zero.mp hcount] at this
          cases this
        simpa using this
      rw [hc, hq]

/-- Claim C8, witness: clearing the two-entry queue, and clearing an
already-empty queue (which succeeds without changing anything). -/
theorem clear_queue_spec_witness :
    clear_queue dbZip2 9 = (dbZip2, PurgeResult.notFound) ∧
    depth (clear_queue dbZip2 1).1 1 = some 0 ∧
    clear_queue dbZip 1 = (dbZip, PurgeResult.done) :=
  ⟨(clear_queue_spec dbZip2 9).1 (by decide),
   ((clear_queue_spec dbZip2 1).2 ⟨1, "Zipline", "fun", 4⟩ (by decide)).2.1,
   ((clear_queue_spec dbZip 1).2 ⟨1, "Zipline", "fun", 4⟩ (by decide)).2.2.2 (by decide)⟩

/-- Claim C9: a successful enqueue on attraction `aid` raises its depth by
exactly one, leaves the attraction table untouched and leaves every other
attraction's listing unchanged; an enqueue with a valid person name against
an unknown attraction id fails with NotFound and changes nothing. -/
theorem enqueue_frame (db : DB) (aid : Nat) (raw_name : String) (now : Nat) :
    (∀ db' e w, add_to_queue db aid raw_name now = (db', EnqueueResult.ok e w) →
      depth db' aid = some (queue_count db aid + 1) ∧
      depth db aid = some (queue_count db aid) ∧
      db'.attractions = db.attractions ∧
      (∀ b, b ≠ aid → list_entries db' b = list_entries db b) ∧
      (∀ b, b ≠ aid → depth db' b = depth db b)) ∧
    (2 ≤ (pyStrip raw_name).length → find_attraction db aid = none →
      add_to_queue db aid raw_name now = (db, EnqueueResult.notFound)) := by
  constructor
  · intro db' e w h
    obtain ⟨hlen, a, hf⟩ := add_to_queue_ok_inv db aid raw_name now db' e w h
    rw [add_to_queue_ok db aid raw_name now a hf hlen] at h
    have h1 : ({ db with
        queue := db.queue ++ [⟨db.nextQueueId, aid, pyStrip raw_name, now⟩]
        nextQueueId := db.nextQueueId + 1 } : DB) = db' := congrArg Prod.fst h
    subst h1
    have hf' : find_attraction { db with
        queue := db.queue ++ [⟨db.nextQueueId, aid, pyStrip raw_name, now⟩]
        nextQueueId := db.nextQueueId + 1 } aid = some a := hf
    have hle : ∀ b, b ≠ aid →
        list_entries { db with
          queue := db.queue ++ [⟨db.nextQueueId, aid, pyStrip raw_name, now⟩]
          nextQueueId := db.nextQueueId + 1 } b = list_entries db b := by
      intro b hb
      have hfb : find_attraction { db with
          queue := db.queue ++ [⟨db.nextQueueId, aid, pyStrip raw_name, now⟩]
          nextQueueId := db.nextQueueId + 1 } b = find_attraction db b := rfl
      have hnb : ((⟨db.nextQueueId, aid, pyStrip raw_name, now⟩ : QueueEntry).attraction_id
          == b) = false := by
        simpa using Ne.symm hb
      cases hfb2 : find_attraction db b with
      | none => simp [list_entries, attraction_detail, hfb2, hfb.trans hfb2]
      | some c =>
          simp [list_entries, attraction_detail, hfb2, hfb.trans hfb2,
            List.filter_cons, hnb]
    refine ⟨?_, depth_eq_count db aid a hf, rfl, hle, ?_⟩
    · rw [depth_eq_count _ _ _ hf']
      have hcount : queue_count { db with
          queue := db.queue ++ [⟨db.nextQueueId, aid, pyStrip raw_name, now⟩]
          nextQueueId := db.nextQueueId + 1 } aid = queue_count db aid + 1 := by
        simp [queue_count, List.filter_append, List.filter_cons]
      rw [hcount]
    · intro b hb
      simp [depth, hle b hb]
  · intro hlen hf
    have h0 : ¬ pyStrip raw_name = "" := by
      intro h
      rw [h] at hlen
      simp at hlen
    have h1 : ¬ (pyStrip raw_name).length < 2 := not_lt.mpr hlen
    simp [add_to_queue, h0, h1, hf]

/-- Claim C9, witness: enqueueing "Cara" on the two-entry database and the
NotFound case against the unknown attraction id 99. -/
theorem enqueue_frame_witness :
    depth (add_to_queue dbZip2 1 "Cara" 9).1 1 = some 3 ∧
    add_to_queue dbZip2 99 "Cara" 9 = (dbZip2, EnqueueResult.notFound) :=
  ⟨(((enqueue_frame dbZip2 1 "Cara" 9).1
      ⟨[⟨1, "Zipline", "fun", 4⟩],
        [⟨1, 1, "Ana", 7⟩, ⟨2, 1, "Bob", 7⟩, ⟨3, 1, "Cara", 9⟩], 2, 4⟩
      ⟨3, 1, "Cara", 9⟩ 12 (by decide)).1).trans (by decide),
   (enqueue_frame dbZip2 99 "Cara" 9).2 (by decide) (by decide)⟩

/-- Claim C6: creating an attraction under an existing name (exact,
case-sensitive match) fails with DuplicateName and changes nothing; editing
an attraction to a name held by a different attraction fails the same way;
and both the create and the edit routes preserve pairwise-distinct
attraction names. -/
theorem attraction_names_unique (db : DB) (aid : Nat) (name desc : String)
    (dopt : Option Int) (hname : name ≠ "") :
    ((∃ a ∈ db.attractions, a.name = name) →
      add_attraction db name desc dopt = (db, CreateResult.duplicateName)) ∧
    ((∃ b ∈ db.attractions, b.name = name ∧ b.id ≠ aid) →
      (∃ a, find_attraction db aid = some a) →
      edit_attraction db aid name desc dopt = (db, EditResult.duplicateName)) ∧
    (db.attractions.Pairwise (fun a b => a.name ≠ b.name) →
      (add_attraction db name desc dopt).1.attractions.Pairwise
        (fun a b => a.name ≠ b.name)) ∧
    (db.attractions.Pairwise (fun a b => a.name ≠ b.name) →
      db.attractions.Pairwise (fun a b => a.id ≠ b.id) →
      (edit_attraction db aid name desc dopt).1.attractions.Pairwise
        (fun a b => a.name ≠ b.name)) := by
  refine ⟨?_, ?_, ?_, ?_⟩
  · rintro ⟨a, ha, rfl⟩
    have hany : db.attractions.any (fun b => b.name == a.name) = true :=
      List.any_eq_true.mpr ⟨a, ha, by simp⟩
    simp [add_attraction, hname, hany]
  · rintro ⟨b, hb, hbname, hbid⟩ ⟨a, ha⟩
    have hany : db.attractions.any (fun c => c.name == name && c.id != aid) = true :=
      List.any_eq_true.mpr ⟨b, hb, by simp [hbname, hbid]⟩
    simp [edit_attraction, ha, hname, hany]
  · intro hnames
    by_cases hany : db.attractions.any (fun a => a.name == name) = true
    · simp [add_attraction, hname, hany, hnames]
    · have hnone : ∀ a ∈ db.attractions, a.name ≠ name := by
        intro a ha habs
        exact hany (List.any_eq_true.mpr ⟨a, ha, by simp [habs]⟩)
      have : add_attraction db name desc dopt =
          ({ db with
              attractions := db.attractions ++
                [⟨db.nextAttractionId, name, desc, dopt.getD 5⟩]
              nextAttractionId := db.nextAttractionId + 1 },
            CreateResult.created) := by
        simp [add_attraction, hname, hany]
      rw [this]
      rw [List.pairwise_append]
      refine ⟨hnames, by simp, ?_⟩
      intro a ha b hb
      rw [List.mem_singleton.mp hb]
      exact hnone a ha
  · intro hnames hids
    cases hf : find_attraction db aid with
    | none => simp [edit_attraction, hf, hnames]
    | some a =>
        by_cases hany : db.attractions.any (fun c => c.name == name && c.id != aid) = true
        · simp [edit_attraction, hf, hname, hany, hnames]
        · have hnodup : ∀ c ∈ db.attractions, c.id ≠ aid → c.name ≠ name := by
            intro c hc hcid habs
            exact hany (List.any_eq_true.mpr ⟨c, hc, by simp [habs, hcid]⟩)
          have hmap : (edit_attraction db aid name desc dopt).1.attractions =
              db.attractions.map (fun b =>
                if b.id == aid then
                  { b with name := name, description := desc,
                           duration_minutes := dopt.getD 5 }
                else b) := by
            simp [edit_attraction, hf, hname, hany]
          rw [hmap, List.pairwise_map]
          refine List.Pairwise.imp_of_mem ?_ (hnames.and hids)
          intro b c hb hc hbc
          show (if b.id == aid then (⟨b.id, name, desc, dopt.getD 5⟩ : Attraction)
              else b).name ≠
            (if c.id == aid then (⟨c.id, name, desc, dopt.getD 5⟩ : Attraction)
              else c).name
          by_cases hbid : b.id = aid
          · have hcid : ¬ c.id = aid := fun habs => hbc.2 (hbid.trans habs.symm)
            rw [if_pos (by simpa using hbid), if_neg (by simpa using hcid)]
            intro habs
            exact hnodup c hc hcid habs.symm
          · by_cases hcid : c.id = aid
            · rw [if_neg (by simpa using hbid), if_pos (by simpa using hcid)]
              intro habs
              exact hnodup b hb hbid habs
            · rw [if_neg (by simpa using hbid), if_neg (by simpa using hcid)]
              exact hbc.1

/-- Claim C6, witness: duplicate create and duplicate rename both fail on
the two-attraction database, and the create route keeps names distinct. -/
theorem attraction_names_unique_witness :
    add_attraction dbTwo "Haunted House" "x" none = (dbTwo, CreateResult.duplicateName) ∧
    edit_attraction dbTwo 2 "Haunted House" "x" none = (dbTwo, EditResult.duplicateName) ∧
    (add_attraction dbTwo "Pool" "x" none).1.attractions.Pairwise
      (fun a b => a.name ≠ b.name) :=
  ⟨(attraction_names_unique dbTwo 2 "Haunted House" "x" none (by decide)).1
      ⟨⟨1, "Haunted House", "spooky", 3⟩, by decide, rfl⟩,
   (attraction_names_unique dbTwo 2 "Haunted House" "x" none (by decide)).2.1
      ⟨⟨1, "Haunted House", "spooky", 3⟩, by decide, rfl, by decide⟩
      ⟨⟨2, "Cave", "dark", 5⟩, by decide⟩,
   (attraction_names_unique dbTwo 2 "Pool" "x" none (by decide)).2.2.1 (by decide)⟩

/-- Claim C1, counterexample: an attraction stored with duration 0 (which
the create route accepts).  The enqueue flash reports 5 minutes, but the
post-insertion depth times the stored service duration is 1 * 0 = 0, so the
reported wait is not depth times service duration. -/
theorem enqueue_report_zero_duration_cex :
    find_attraction dbZero 1 = some ⟨1, "Zip", "", 0⟩ ∧
    (add_to_queue dbZero 1 "Ana" 0).2 = EnqueueResult.ok ⟨1, 1, "Ana", 0⟩ 5 ∧
    depth (add_to_queue dbZero 1 "Ana" 0).1 1 = some 1 ∧
    (1 : Int) * 0 ≠ 5 := by decide

/-- Claim C1 (amended): every index row reports estimated wait equal to the
row's depth times its stored duration, and the wait reported by a
successful enqueue equals the post-insertion depth times the stored
duration with 0 replaced by 5 (Python's `or 5` fallback) — hence equals
depth times stored duration whenever the stored duration is nonzero. -/
theorem estimated_wait_formula (db : DB) (aid : Nat) (raw_name : String)
    (now : Nat) :
    (∀ r ∈ index db,
      r.estimated_wait_minutes = (r.queue_count : Int) * r.duration_minutes) ∧
    (∀ a db' e w, find_attraction db aid = some a →
      add_to_queue db aid raw_name now = (db', EnqueueResult.ok e w) →
      depth db' aid = some (queue_count db aid + 1) ∧
      w = ((queue_count db aid + 1 : Nat) : Int) *
            (if a.duration_minutes = 0 then 5 else a.duration_minutes)) := by
  constructor
  · intro r hr
    rcases List.mem_map.mp ((sortLe_perm nameLE _).mem_iff.mp hr) with ⟨a, _, rfl⟩
    rfl
  · intro a db' e w hf h
    obtain ⟨hlen, a', hf'⟩ := add_to_queue_ok_inv db aid raw_name now db' e w h
    rw [add_to_queue_ok db aid raw_name now a hf hlen] at h
    have h1 : ({ db with
        queue := db.queue ++ [⟨db.nextQueueId, aid, pyStrip raw_name, now⟩]
        nextQueueId := db.nextQueueId + 1 } : DB) = db' := congrArg Prod.fst h
    have h2 := congrArg Prod.snd h
    subst h1
    constructor
    · have hf2 : find_attraction { db with
          queue := db.queue ++ [⟨db.nextQueueId, aid, pyStrip raw_name, now⟩]
          nextQueueId := db.nextQueueId + 1 } aid = some a := hf
      rw [depth_eq_count _ _ _ hf2]
      simp [queue_count, List.filter_append, List.filter_cons]
    · injection h2 with he hw
      exact hw.symm

/-- Claim C1, witness: the index-row formula and the enqueue report at the
concrete two-entry database (duration 4, post-insertion depth 3, report
12). -/
theorem estimated_wait_formula_witness :
    (⟨1, "Zipline", "fun", 4, 2, 8⟩ : IndexRow).estimated_wait_minutes =
      ((⟨1, "Zipline", "fun", 4, 2, 8⟩ : IndexRow).queue_count : Int) *
        (⟨1, "Zipline", "fun", 4, 2, 8⟩ : IndexRow).duration_minutes ∧
    depth (add_to_queue dbZip2 1 "Cara" 9).1 1 = some (queue_count dbZip2 1 + 1) ∧
    (12 : Int) = ((queue_count dbZip2 1 + 1 : Nat) : Int) *
      (if (4 : Int) = 0 then 5 else 4) := by
  refine ⟨(estimated_wait_formula dbZip2 1 "Cara" 9).1 _ (by decide), ?_, ?_⟩
  · exact ((estimated_wait_formula dbZip2 1 "Cara" 9).2 ⟨1, "Zipline", "fun", 4⟩
      ⟨[⟨1, "Zipline", "fun", 4⟩],
        [⟨1, 1, "Ana", 7⟩, ⟨2, 1, "Bob", 7⟩, ⟨3, 1, "Cara", 9⟩], 2, 4⟩
      ⟨3, 1, "Cara", 9⟩ 12 (by decide) (by decide)).1
  · exact ((estimated_wait_formula dbZip2 1 "Cara" 9).2 ⟨1, "Zipline", "fun", 4⟩
      ⟨[⟨1, "Zipline", "fun", 4⟩],
        [⟨1, 1, "Ana", 7⟩, ⟨2, 1, "Bob", 7⟩, ⟨3, 1, "Cara", 9⟩], 2, 4⟩
      ⟨3, 1, "Cara", 9⟩ 12 (by decide) (by decide)).2

/-- Claim C2, counterexample: the program's only dequeue route,
`next_person`, takes an entry id and here removes "Bob" (entry 2) while the
first entry of the listing, "Ana" (entry 1), stays in the queue — so the
dequeue operation does not remove exactly the first entry of the
ordering. -/
theorem next_person_not_head_cex :
    list_entries dbZip2 1 = some [⟨1, 1, "Ana", 7⟩, ⟨2, 1, "Bob", 7⟩] ∧
    (next_person dbZip2 2).2 = DequeueResult.removed 1 ∧
    (next_person dbZip2 2).1.queue = [⟨1, 1, "Ana", 7⟩] := by decide

/-- Claim C2 (amended): the listing of an attraction is ordered by
timestamp ascending with ties broken by entry id ascending, and removal is
by explicit id: `next_person` called with the id of the listing's head
removes exactly the head, leaving the tail — so head-id dequeues return
entries in listing order. -/
theorem listing_order_and_head_dequeue (db : DB) (aid : Nat)
    (hWF : db.queue.Pairwise (fun a b => a.id < b.id)) :
    (∀ l, list_entries db aid = some l → l.Pairwise LexLt) ∧
    (∀ e t, list_entries db aid = some (e :: t) →
      next_person db e.id =
        ({ db with queue := db.queue.filter (fun x => x.id != e.id) },
          DequeueResult.removed aid) ∧
      list_entries (next_person db e.id).1 aid = some t) := by
  have hsub : (db.queue.filter (fun x => x.attraction_id == aid)).Pairwise
      (fun a b => a.id < b.id) :=
    List.Pairwise.sublist (List.filter_sublist db.queue) hWF
  constructor
  · intro l hl
    cases hf : find_attraction db aid with
    | none => simp [list_entries, attraction_detail, hf] at hl
    | some a =>
        have hl' : sortLe tsLE (db.queue.filter (fun x => x.attraction_id == aid)) = l := by
          simpa [list_entries, attraction_detail, hf] using hl
        rw [← hl']
        exact pairwise_lex_sortLe _ hsub
  · intro e t hl
    cases hf : find_attraction db aid with
    | none => simp [list_entries, attraction_detail, hf] at hl
    | some a =>
        have hsort : sortLe tsLE (db.queue.filter (fun x => x.attraction_id == aid)) =
            e :: t := by
          simpa [list_entries, attraction_detail, hf] using hl
        have hememfl : e ∈ db.queue.filter (fun x => x.attraction_id == aid) := by
          rw [← mem_sortLe tsLE, hsort]
          exact List.mem_cons_self _ _
        have hemem : e ∈ db.queue := (List.mem_filter.mp hememfl).1
        have heaid : e.attraction_id = aid := by
          simpa using (List.mem_filter.mp hememfl).2
        have hfind := find?_eq_of_pairwise_mem db.queue hWF e hemem
        have hnp : next_person db e.id =
            ({ db with queue := db.queue.filter (fun x => x.id != e.id) },
              DequeueResult.removed aid) := by
          simp [next_person, hfind, heaid]
        refine ⟨hnp, ?_⟩
        rw [hnp]
        have hne : ∀ x ∈ t, x.id ≠ e.id := by
          have hperm := sortLe_perm tsLE (db.queue.filter (fun x => x.attraction_id == aid))
          have hidsne : (sortLe tsLE
              (db.queue.filter (fun x => x.attraction_id == aid))).Pairwise
              (fun a b => a.id ≠ b.id) :=
            (hperm.pairwise_iff (fun h => Ne.symm h)).mpr
              (hsub.imp (fun h => Nat.ne_of_lt h))
          rw [hsort] at hidsne
          intro x hx
          exact Ne.symm ((List.pairwise_cons.mp hidsne).1 x hx)
        have hkey : sortLe tsLE ((db.queue.filter (fun x => x.id != e.id)).filter
            (fun x => x.attraction_id == aid)) = t := by
          have hcomm : (db.queue.filter (fun x => x.id != e.id)).filter
              (fun x => x.attraction_id == aid) =
              (db.queue.filter (fun x => x.attraction_id == aid)).filter
                (fun x => x.id != e.id) := by
            rw [List.filter_filter, List.filter_filter]
            exact List.filter_congr (fun x _ => Bool.and_comm _ _)
          rw [hcomm, ← filter_sortLe, hsort,
            List.filter_cons_of_neg (by simp),
            List.filter_eq_self.mpr (fun x hx => by simpa using hne x hx)]
        have hf2 : find_attraction
            { db with queue := db.queue.filter (fun x => x.id != e.id) } aid =
            some a := hf
        have hkey2 : sortLe tsLE (db.queue.filter
            (fun a => a.attraction_id == aid && a.id != e.id)) = t := by
          rw [← List.filter_filter]
          exact hkey
        simp [list_entries, attraction_detail, hf2, hkey2]

/-- Claim C2, witness: on the two-entry database with a timestamp tie the
listing comes back in id order, and dequeueing the head id 1 removes "Ana"
and leaves the listing ["Bob"]. -/
theorem listing_order_and_head_dequeue_witness :
    List.Pairwise LexLt [(⟨1, 1, "Ana", 7⟩ : QueueEntry), ⟨2, 1, "Bob", 7⟩] ∧
    next_person dbZip2 1 =
      ({ dbZip2 with queue := dbZip2.queue.filter (fun x => x.id != 1) },
        DequeueResult.removed 1) ∧
    list_entries (next_person dbZip2 1).1 1 = some [⟨2, 1, "Bob", 7⟩] :=
  ⟨(listing_order_and_head_dequeue dbZip2 1 (by decide)).1
      [⟨1, 1, "Ana", 7⟩, ⟨2, 1, "Bob", 7⟩] (by decide),
   ((listing_order_and_head_dequeue dbZip2 1 (by decide)).2 ⟨1, 1, "Ana", 7⟩
      [⟨2, 1, "Bob", 7⟩] (by decide)).1,
   ((listing_order_and_head_dequeue dbZip2 1 (by decide)).2 ⟨1, 1, "Ana", 7⟩
      [⟨2, 1, "Bob", 7⟩] (by decide)).2⟩

end ExpyFest
